import Mathlib

/-!
Shallow embedding of the wicked precondition-gating and external-execution
reconciliation subsystem:

* the bonding attribute-list reconciler `ni_sysfs_bonding_set_list_attr`
  (src/sysfs.c), with the sysfs backend abstracted as an injected read
  result and a per-line write oracle;
* the extension runner `__ni_extension_run` / `ni_extension_active`
  (src/extension.c), with the xpath evaluator abstracted as the list of
  strings each template evaluates to against the fixed context document
  (`none` = evaluation error), the child process abstracted as its final
  wait status, and `access(path, F_OK)` abstracted as a predicate;
* the reachability requirement check `ni_fsm_require_check_reachable`
  (client/reachable.c), with the hostname resolver and reachability
  prober abstracted as oracles returning the integer counts of the C functions.
-/

/-- Modelled from the spec: `ni_string_array_comm` is declared in the
utility library, whose source is not part of this tree; only its caller
`ni_sysfs_bonding_set_list_attr` is.  Per the spec it partitions the two
sequences into the part unique to the first (`to_remove`), the part unique
to the second (`to_add`) and the part common to both (`unchanged`), each
preserving the order of its source sequence. -/
def ni_string_array_comm (a b : List String) :
    List String × List String × List String :=
  (a.filter (fun s => decide (s ∉ b)),
   b.filter (fun s => decide (s ∉ a)),
   a.filter (fun s => decide (s ∈ b)))

/-- One `__ni_sysfs_printf` call per line, in order; the first failing
write aborts the loop (`goto done` with `rv = -1` in the C).  Returns the
return value and the trace of attempted writes, the failing one included. -/
def runWrites (writeOk : String → Bool) : List String → Int × List String
  | [] => (0, [])
  | w :: ws =>
    if writeOk w then
      let r := runWrites writeOk ws
      (r.1, w :: r.2)
    else
      (-1, [w])

/-- Embedding of `ni_sysfs_bonding_set_list_attr` (src/sysfs.c): read the current list
(`readResult`, `none` meaning `__ni_sysfs_read_list` failed), diff it
against the desired `list`, short-circuit on an empty diff, otherwise
write all removals then all additions.  The second component is the
ordered trace of write lines handed to `__ni_sysfs_printf`. -/
def ni_sysfs_bonding_set_list_attr (readResult : Option (List String))
    (writeOk : String → Bool) (list : List String) : Int × List String :=
  match readResult with
  | none => (-1, [])
  | some current =>
    let parts := ni_string_array_comm current list
    let delete := parts.1
    let add := parts.2.1
    if add.length = 0 ∧ delete.length = 0 then
      (0, [])
    else
      runWrites writeOk
        (delete.map (fun s => "-" ++ s ++ "\n") ++
         add.map (fun s => "+" ++ s ++ "\n"))

/-- C1: for every pair (current, desired), the partition computed by
`ni_string_array_comm` satisfies: to-remove and to-add are disjoint,
to-remove plus unchanged equals current as a set, to-add plus unchanged
equals desired as a set, and each partition is a sublist of (hence
preserves the relative order of) its source sequence. -/
theorem comm_partition_invariants (current desired : List String) :
    (∀ x, x ∈ (ni_string_array_comm current desired).1 →
        x ∉ (ni_string_array_comm current desired).2.1) ∧
    (∀ x, (x ∈ (ni_string_array_comm current desired).1 ∨
           x ∈ (ni_string_array_comm current desired).2.2) ↔ x ∈ current) ∧
    (∀ x, (x ∈ (ni_string_array_comm current desired).2.1 ∨
           x ∈ (ni_string_array_comm current desired).2.2) ↔ x ∈ desired) ∧
    (ni_string_array_comm current desired).1.Sublist current ∧
    (ni_string_array_comm current desired).2.1.Sublist desired ∧
    (ni_string_array_comm current desired).2.2.Sublist current := by
  refine ⟨?_, ?_, ?_, ?_, ?_, ?_⟩
  · intro x hx hx2
    simp only [ni_string_array_comm, List.mem_filter, decide_eq_true_eq] at hx hx2
    exact hx.2 hx2.1
  · intro x
    simp only [ni_string_array_comm, List.mem_filter, decide_eq_true_eq]
    constructor
    · rintro (⟨h, _⟩ | ⟨h, _⟩) <;> exact h
    · intro h
      by_cases hmem : x ∈ desired
      · exact Or.inr ⟨h, hmem⟩
      · exact Or.inl ⟨h, hmem⟩
  · intro x
    simp only [ni_string_array_comm, List.mem_filter, decide_eq_true_eq]
    constructor
    · rintro (⟨h, _⟩ | ⟨_, h⟩) <;> exact h
    · intro h
      by_cases hmem : x ∈ current
      · exact Or.inr ⟨hmem, h⟩
      · exact Or.inl ⟨h, hmem⟩
  · exact List.filter_sublist current
  · exact List.filter_sublist desired
  · exact List.filter_sublist current

lemma runWrites_all_ok (writeOk : String → Bool) :
    ∀ ws : List String, (∀ w ∈ ws, writeOk w = true) →
      runWrites writeOk ws = (0, ws) := by
  intro ws
  induction ws with
  | nil => intro _; rfl
  | cons w ws ih =>
    intro h
    have hw : writeOk w = true := h w (List.mem_cons_self w ws)
    have hrest := ih (fun u hu => h u (List.mem_cons_of_mem w hu))
    simp [runWrites, hw, hrest]

lemma runWrites_first_fail (writeOk : String → Bool) :
    ∀ (pre : List String) (w : String) (post : List String),
      (∀ u ∈ pre, writeOk u = true) → writeOk w = false →
      runWrites writeOk (pre ++ w :: post) = (-1, pre ++ [w]) := by
  intro pre
  induction pre with
  | nil =>
    intro w post _ hw
    simp [runWrites, hw]
  | cons u pre ih =>
    intro w post hpre hw
    have hu : writeOk u = true := hpre u (List.mem_cons_self u pre)
    have hrest := ih w post (fun v hv => hpre v (List.mem_cons_of_mem u hv)) hw
    simp [runWrites, hu, hrest]

/-- C4: for every reconciliation with a non-empty diff, the write trace
consists of all removals first, in to-remove order, then all additions,
in to-add order (each as a single `-value\n` resp. `+value\n` line); if
every write succeeds the call returns 0 having issued exactly that
sequence, and the first failing write aborts the call with -1, the
writes already applied before the failure left in place (the trace is
exactly the successful ones followed by the failing one — no
compensating writes are issued). -/
theorem set_list_attr_apply_order (current list : List String)
    (writeOk : String → Bool)
    (h : ¬((ni_string_array_comm current list).2.1.length = 0 ∧
           (ni_string_array_comm current list).1.length = 0)) :
    ((∀ w ∈ (ni_string_array_comm current list).1.map
              (fun s => "-" ++ s ++ "\n") ++
            (ni_string_array_comm current list).2.1.map
              (fun s => "+" ++ s ++ "\n"), writeOk w = true) →
      ni_sysfs_bonding_set_list_attr (some current) writeOk list =
        (0, (ni_string_array_comm current list).1.map
              (fun s => "-" ++ s ++ "\n") ++
            (ni_string_array_comm current list).2.1.map
              (fun s => "+" ++ s ++ "\n"))) ∧
    (∀ (pre : List String) (w : String) (post : List String),
      (ni_string_array_comm current list).1.map
          (fun s => "-" ++ s ++ "\n") ++
        (ni_string_array_comm current list).2.1.map
          (fun s => "+" ++ s ++ "\n") = pre ++ w :: post →
      (∀ u ∈ pre, writeOk u = true) → writeOk w = false →
      ni_sysfs_bonding_set_list_attr (some current) writeOk list =
        (-1, pre ++ [w])) := by
  constructor
  · intro hall
    simp only [ni_sysfs_bonding_set_list_attr, if_neg h]
    exact runWrites_all_ok writeOk _ hall
  · intro pre w post hsplit hpre hw
    simp only [ni_sysfs_bonding_set_list_attr, if_neg h]
    rw [hsplit]
    exact runWrites_first_fail writeOk pre w post hpre hw

/-- C4 witness: current = [eth0, eth1], desired = [eth1, eth2] gives
to-remove = [eth0], to-add = [eth2]; with an always-succeeding backend
the call returns 0 after writing `-eth0\n` then `+eth2\n`, in that
order. -/
theorem set_list_attr_apply_order_witness :
    ni_sysfs_bonding_set_list_attr (some ["eth0", "eth1"]) (fun _ => true)
      ["eth1", "eth2"] = (0, ["-eth0\n", "+eth2\n"]) :=
  (set_list_attr_apply_order ["eth0", "eth1"] ["eth1", "eth2"]
    (fun _ => true) (by decide)).1 (by decide)

/-- C6: whenever the computed to-remove and to-add partitions are both
empty — in particular whenever desired equals current as a set — the
reconciliation returns 0 immediately with an empty write trace. -/
theorem set_list_attr_empty_diff_noop (current list : List String)
    (writeOk : String → Bool)
    (h : (ni_string_array_comm current list).1 = [] ∧
         (ni_string_array_comm current list).2.1 = []) :
    ni_sysfs_bonding_set_list_attr (some current) writeOk list = (0, []) := by
  simp only [ni_sysfs_bonding_set_list_attr]
  rw [if_pos ⟨by rw [h.2]; rfl, by rw [h.1]; rfl⟩]

/-- C6 witness: current = desired = [eth0] yields empty partitions, and
the reconciliation is a no-op success with zero backend writes. -/
theorem set_list_attr_empty_diff_noop_witness :
    ni_sysfs_bonding_set_list_attr (some ["eth0"]) (fun _ => false)
      ["eth0"] = (0, []) :=
  set_list_attr_empty_diff_noop ["eth0"] ["eth0"] (fun _ => false) (by decide)

/-- An xpath template is represented by the result of evaluating it
against the fixed context document: `none` when `xpath_format_eval`
fails, `some vs` for the ordered list of produced strings. -/
abbrev XPathEval := Option (List String)

/-- Embedding of `ni_extension_t` (src/extension.c / netinfo.h): only the fields the
runner reads.  `pid_file_path`, `start_command` and `stop_command` are
`none` when the template is not configured, otherwise `some` of the
evaluation behaviour of the template. -/
structure ni_extension_t where
  name : String
  pid_file_path : Option XPathEval
  start_command : Option XPathEval
  stop_command : Option XPathEval
  environment : List XPathEval

/-- Final outcome of the spawned child observed through the
waitpid/WIFEXITED classification in `__ni_extension_run` (the EINTR and
WIFSTOPPED continuations loop until one of these is reached). -/
inductive ChildStatus where
  | exited (code : Nat)
  | signaled
  | forkFailed
  | waitFailed
deriving Repr, DecidableEq

/-- Observable outcome of `__ni_extension_run`: the C return value, plus
the side effects the spec talks about — whether a child was spawned, how
many environment templates were evaluated, whether the command template
was evaluated, and whether the liveness probe was queried. -/
structure RunResult where
  rv : Int
  spawned : Bool
  envEvaluated : Nat
  commandEvaluated : Bool
  probeQueried : Bool
deriving Repr, DecidableEq

/-- The environment-expansion loop of `__ni_extension_run`: each template
is evaluated in order; an evaluation error or more than one value aborts
(`none`); a single value is appended to the environment; zero values are
skipped.  The first component counts the templates actually evaluated. -/
def expandEnv : List XPathEval → Nat × Option (List String)
  | [] => (0, some [])
  | e :: rest =>
    match e with
    | none => (1, none)
    | some vals =>
      if 1 < vals.length then
        (1, none)
      else
        let r := expandEnv rest
        match vals with
        | [] => (r.1 + 1, r.2)
        | v :: _ => (r.1 + 1, r.2.map (fun env => v :: env))

/-- Embedding of `ni_extension_active` (src/extension.c): evaluate the pid-file path
template; an unconfigured template, an evaluation error or a result count
different from one yields 0 (not live); otherwise live iff the single
resulting path exists. -/
def ni_extension_active (fileExists : String → Bool)
    (pid_file_path : Option XPathEval) : Int :=
  match pid_file_path with
  | none => 0
  | some evalResult =>
    match evalResult with
    | none => 0
    | some vals =>
      match vals with
      | [v] => if fileExists v then 1 else 0
      | _ => 0

/-- Embedding of `__ni_extension_run` (src/extension.c): no command template is a
no-op success; expand the environment (abort on error), evaluate the
command template (abort unless exactly one string), spawn a shell child,
reap it, and classify: abnormal termination or non-zero exit is failure;
on zero exit with a configured pid-file template the liveness probe must
agree with the operation (`start` needs live, `stop` needs not-live). -/
def __ni_extension_run (ex : ni_extension_t) (command_name : String)
    (command : Option XPathEval) (child : ChildStatus)
    (fileExists : String → Bool) : RunResult :=
  match command with
  | none => ⟨0, false, 0, false, false⟩
  | some cmdEval =>
    match expandEnv ex.environment with
    | (n, none) => ⟨-1, false, n, false, false⟩
    | (n, some _env) =>
      match cmdEval with
      | none => ⟨-1, false, n, true, false⟩
      | some cmds =>
        match cmds with
        | [_cmd] =>
          match child with
          | .forkFailed => ⟨-1, false, n, true, false⟩
          | .waitFailed => ⟨-1, true, n, true, false⟩
          | .signaled => ⟨-1, true, n, true, false⟩
          | .exited code =>
            if code ≠ 0 then
              ⟨-1, true, n, true, false⟩
            else
              match ex.pid_file_path with
              | none => ⟨0, true, n, true, false⟩
              | some _ =>
                let is_active := ni_extension_active fileExists ex.pid_file_path
                if command_name = "start" ∧ is_active = 0 then
                  ⟨-1, true, n, true, true⟩
                else if command_name = "stop" ∧ is_active ≠ 0 then
                  ⟨-1, true, n, true, true⟩
                else
                  ⟨0, true, n, true, true⟩
        | _ => ⟨-1, false, n, true, false⟩

/-- Embedding of `ni_extension_start` (src/extension.c). -/
def ni_extension_start (ex : ni_extension_t) (child : ChildStatus)
    (fileExists : String → Bool) : RunResult :=
  __ni_extension_run ex "start" ex.start_command child fileExists

/-- Embedding of `ni_extension_stop` (src/extension.c). -/
def ni_extension_stop (ex : ni_extension_t) (child : ChildStatus)
    (fileExists : String → Bool) : RunResult :=
  __ni_extension_run ex "stop" ex.stop_command child fileExists

/-- C9: an extension run (start or stop) whose command template is absent
returns success immediately: no environment template is evaluated, the
command is not evaluated, no child is spawned and no probe is queried. -/
theorem extension_run_no_command_noop (ex : ni_extension_t)
    (child : ChildStatus) (fx : String → Bool) :
    (ex.start_command = none →
      ni_extension_start ex child fx = ⟨0, false, 0, false, false⟩) ∧
    (ex.stop_command = none →
      ni_extension_stop ex child fx = ⟨0, false, 0, false, false⟩) := by
  constructor
  · intro h
    unfold ni_extension_start
    rw [h]
    rfl
  · intro h
    unfold ni_extension_stop
    rw [h]
    rfl

/-- C9 witness: an extension with neither command configured is a no-op
success for both start and stop. -/
theorem extension_run_no_command_noop_witness :
    ni_extension_start ⟨"dhcp", none, none, none, []⟩ (.exited 0)
        (fun _ => false) = ⟨0, false, 0, false, false⟩ ∧
    ni_extension_stop ⟨"dhcp", none, none, none, []⟩ (.exited 0)
        (fun _ => false) = ⟨0, false, 0, false, false⟩ :=
  ⟨(extension_run_no_command_noop ⟨"dhcp", none, none, none, []⟩
      (.exited 0) (fun _ => false)).1 rfl,
   (extension_run_no_command_noop ⟨"dhcp", none, none, none, []⟩
      (.exited 0) (fun _ => false)).2 rfl⟩

/-- C3: when the child exits 0, the environment expanded cleanly, the
command template produced exactly one string and a liveness probe is
configured, a probe verdict disagreeing with the operation (start needs
live, stop needs not-live) makes the run fail (-1) even though the child
was spawned and exited cleanly. -/
theorem extension_run_probe_mismatch_fails (ex : ni_extension_t)
    (command_name cmdVal : String) (probeEval : XPathEval)
    (fx : String → Bool)
    (henv : (expandEnv ex.environment).2 ≠ none)
    (hprobe : ex.pid_file_path = some probeEval)
    (hmis : (command_name = "start" ∧
              ni_extension_active fx ex.pid_file_path = 0) ∨
            (command_name = "stop" ∧
              ni_extension_active fx ex.pid_file_path ≠ 0)) :
    (__ni_extension_run ex command_name (some (some [cmdVal]))
        (.exited 0) fx).rv = -1 ∧
    (__ni_extension_run ex command_name (some (some [cmdVal]))
        (.exited 0) fx).spawned = true := by
  rcases hE : expandEnv ex.environment with ⟨n, e2⟩
  cases e2 with
  | none => exact absurd (by rw [hE]) henv
  | some env =>
    rw [hprobe] at hmis
    rcases hmis with ⟨hs, ha⟩ | ⟨hs, ha⟩ <;>
      simp [__ni_extension_run, hE, hprobe, hs, ha]

/-- C3 witness: a start command exiting 0 with a configured pid-file
template whose path does not exist fails with -1 after spawning. -/
theorem extension_run_probe_mismatch_fails_witness :
    (__ni_extension_run ⟨"dhcp", some (some ["/run/x.pid"]), none, none, []⟩
        "start" (some (some ["cmd"])) (.exited 0) (fun _ => false)).rv = -1 ∧
    (__ni_extension_run ⟨"dhcp", some (some ["/run/x.pid"]), none, none, []⟩
        "start" (some (some ["cmd"])) (.exited 0) (fun _ => false)).spawned
      = true :=
  extension_run_probe_mismatch_fails
    ⟨"dhcp", some (some ["/run/x.pid"]), none, none, []⟩
    "start" "cmd" (some ["/run/x.pid"]) (fun _ => false)
    (by decide) rfl (Or.inl ⟨rfl, rfl⟩)

/-- An environment template is "bad" when it fails to evaluate or
produces more than one value; the C loop aborts on the first such one. -/
def badEnvExpr (e : XPathEval) : Prop :=
  e = none ∨ ∃ vs, e = some vs ∧ 1 < vs.length

lemma expandEnv_none_of_bad :
    ∀ exprs : List XPathEval, (∃ e ∈ exprs, badEnvExpr e) →
      (expandEnv exprs).2 = none := by
  intro exprs
  induction exprs with
  | nil => rintro ⟨e, he, _⟩; exact absurd he (List.not_mem_nil e)
  | cons e rest ih =>
    rintro ⟨f, hf, hbad⟩
    rcases List.mem_cons.mp hf with rfl | hmem
    · rcases hbad with rfl | ⟨vs, rfl, hlen⟩
      · rfl
      · simp [expandEnv, hlen]
    · have hrest := ih ⟨f, hmem, hbad⟩
      cases e with
      | none => rfl
      | some vs =>
        by_cases hlen : 1 < vs.length
        · simp [expandEnv, hlen]
        · cases vs with
          | nil => simp [expandEnv, hlen, hrest]
          | cons v t =>
            have ht : ¬ 0 < t.length := fun hp =>
              hlen (by simpa using Nat.succ_lt_succ hp)
            simp [expandEnv, hlen, ht, hrest]

lemma expandEnv_some_eq :
    ∀ (exprs : List XPathEval) (env : List String),
      (expandEnv exprs).2 = some env →
      env = exprs.filterMap (fun e => e.bind List.head?) := by
  intro exprs
  induction exprs with
  | nil =>
    intro env h
    simp [expandEnv] at h
    simp [h.symm]
  | cons e rest ih =>
    intro env h
    cases e with
    | none => exact absurd h (by simp [expandEnv])
    | some vs =>
      by_cases hlen : 1 < vs.length
      · exact absurd h (by simp [expandEnv, hlen])
      · cases vs with
        | nil =>
          simp only [expandEnv, if_neg hlen] at h
          have := ih env h
          simpa [List.filterMap] using this
        | cons v t =>
          have ht : ¬ 0 < t.length := fun hp =>
            hlen (by simpa using Nat.succ_lt_succ hp)
          cases hr : (expandEnv rest).2 with
          | none => exact absurd h (by simp [expandEnv, hlen, ht, hr])
          | some env0 =>
            have h2 := h
            simp only [expandEnv, if_neg hlen, hr, Option.map_some',
              Option.some.injEq] at h2
            have hrec := ih env0 hr
            simp [List.filterMap_cons, ← h2, hrec]

/-- C7: with a configured command template, (i) an environment template
that fails to evaluate or yields more than one value makes the whole run
fail (-1) before any child is spawned; (ii) when expansion succeeds, the
environment contains exactly the head value of each template that
produced something (templates with zero values are skipped, setting no
variable); (iii) a command template that fails to evaluate or yields a
number of strings different from one makes the run fail (-1) before any
child is spawned. -/
theorem extension_run_expression_errors (ex : ni_extension_t)
    (command_name : String) (cmdEval : XPathEval) (child : ChildStatus)
    (fx : String → Bool) :
    ((∃ e ∈ ex.environment, badEnvExpr e) →
      (__ni_extension_run ex command_name (some cmdEval) child fx).rv = -1 ∧
      (__ni_extension_run ex command_name (some cmdEval) child fx).spawned
        = false) ∧
    (∀ env, (expandEnv ex.environment).2 = some env →
      env = ex.environment.filterMap (fun e => e.bind List.head?)) ∧
    ((expandEnv ex.environment).2 ≠ none →
      (cmdEval = none ∨ ∀ vs, cmdEval = some vs → vs.length ≠ 1) →
      (__ni_extension_run ex command_name (some cmdEval) child fx).rv = -1 ∧
      (__ni_extension_run ex command_name (some cmdEval) child fx).spawned
        = false) := by
  refine ⟨?_, ?_, ?_⟩
  · intro hbad
    have hnone := expandEnv_none_of_bad ex.environment hbad
    rcases hE : expandEnv ex.environment with ⟨n, e2⟩
    rw [hE] at hnone
    cases e2 with
    | none => simp [__ni_extension_run, hE]
    | some env => exact absurd hnone (by simp)
  · exact fun env h => expandEnv_some_eq ex.environment env h
  · intro henv hcmd
    rcases hE : expandEnv ex.environment with ⟨n, e2⟩
    rw [hE] at henv
    cases e2 with
    | none => exact absurd rfl henv
    | some env =>
      rcases hcmd with rfl | hlen
      · simp [__ni_extension_run, hE]
      · cases cmdEval with
        | none => simp [__ni_extension_run, hE]
        | some vs =>
          have hv := hlen vs rfl
          match vs, hv with
          | [], _ => simp [__ni_extension_run, hE]
          | v1 :: v2 :: rest, _ => simp [__ni_extension_run, hE]
          | [v], hv => exact absurd rfl hv

/-- C7 witness: a two-valued environment template aborts with -1 and no
spawn; a zero-valued template is skipped so only the single-valued one
sets a variable; a zero-valued command template aborts with -1 and no
spawn. -/
theorem extension_run_expression_errors_witness :
    ((__ni_extension_run ⟨"e1", none, none, none, [some ["A=1", "B=2"]]⟩
        "start" (some (some ["cmd"])) (.exited 0) (fun _ => false)).rv = -1 ∧
     (__ni_extension_run ⟨"e1", none, none, none, [some ["A=1", "B=2"]]⟩
        "start" (some (some ["cmd"])) (.exited 0)
        (fun _ => false)).spawned = false) ∧
    (["X=1"] : List String) =
      List.filterMap (fun e => Option.bind e List.head?)
        ([some [], some ["X=1"]] : List XPathEval) ∧
    ((__ni_extension_run ⟨"e3", none, none, none, []⟩
        "start" (some (some [])) (.exited 0) (fun _ => false)).rv = -1 ∧
     (__ni_extension_run ⟨"e3", none, none, none, []⟩
        "start" (some (some [])) (.exited 0)
        (fun _ => false)).spawned = false) :=
  ⟨(extension_run_expression_errors ⟨"e1", none, none, none,
      [some ["A=1", "B=2"]]⟩ "start" (some ["cmd"]) (.exited 0)
      (fun _ => false)).1
      ⟨some ["A=1", "B=2"], by decide, Or.inr ⟨["A=1", "B=2"], rfl, by decide⟩⟩,
   (extension_run_expression_errors ⟨"e2", none, none, none,
      [some [], some ["X=1"]]⟩ "start" none (.exited 0)
      (fun _ => false)).2.1 ["X=1"] rfl,
   (extension_run_expression_errors ⟨"e3", none, none, none, []⟩
      "start" (some []) (.exited 0) (fun _ => false)).2.2
      (by decide) (Or.inr (by intro vs h; cases h; decide))⟩

/-- C10: a configured pid-file template that fails to evaluate or yields
a number of paths different from one makes `ni_extension_active` report
0 (not live) rather than a distinct error; consequently, after a child
exits 0, a stop run with such a probe is reported as success (0) while a
start run with such a probe is reported as failure (-1). -/
theorem extension_probe_error_reports_not_live (ex : ni_extension_t)
    (cmdVal : String) (probeEval : XPathEval) (fx : String → Bool)
    (henv : (expandEnv ex.environment).2 ≠ none)
    (hprobe : ex.pid_file_path = some probeEval)
    (hbad : probeEval = none ∨ ∀ vs, probeEval = some vs → vs.length ≠ 1) :
    ni_extension_active fx ex.pid_file_path = 0 ∧
    (__ni_extension_run ex "stop" (some (some [cmdVal]))
        (.exited 0) fx).rv = 0 ∧
    (__ni_extension_run ex "start" (some (some [cmdVal]))
        (.exited 0) fx).rv = -1 := by
  have hactive : ni_extension_active fx ex.pid_file_path = 0 := by
    rw [hprobe]
    rcases hbad with rfl | hlen
    · rfl
    · cases probeEval with
      | none => rfl
      | some vs =>
        have hv := hlen vs rfl
        match vs, hv with
        | [], _ => rfl
        | v1 :: v2 :: rest, _ => rfl
        | [v], hv => exact absurd rfl hv
  have hactive2 : ni_extension_active fx (some probeEval) = 0 := by
    rw [← hprobe]; exact hactive
  refine ⟨hactive, ?_, ?_⟩
  · rcases hE : expandEnv ex.environment with ⟨n, e2⟩
    rw [hE] at henv
    cases e2 with
    | none => exact absurd rfl henv
    | some env => simp [__ni_extension_run, hE, hprobe, hactive2]
  · rcases hE : expandEnv ex.environment with ⟨n, e2⟩
    rw [hE] at henv
    cases e2 with
    | none => exact absurd rfl henv
    | some env => simp [__ni_extension_run, hE, hprobe, hactive2]

/-- C10 witness: an extension whose pid-file template errors out: the
probe reports not-live, a stop run (child exited 0) is reported as
success, and a start run as failure. -/
theorem extension_probe_error_reports_not_live_witness :
    ni_extension_active (fun _ => false)
      (⟨"vpn", some none, none, none, []⟩ : ni_extension_t).pid_file_path
        = 0 ∧
    (__ni_extension_run ⟨"vpn", some none, none, none, []⟩ "stop"
        (some (some ["cmd"])) (.exited 0) (fun _ => false)).rv = 0 ∧
    (__ni_extension_run ⟨"vpn", some none, none, none, []⟩ "start"
        (some (some ["cmd"])) (.exited 0) (fun _ => false)).rv = -1 :=
  extension_probe_error_reports_not_live
    ⟨"vpn", some none, none, none, []⟩ "cmd" none (fun _ => false)
    (by decide) rfl (Or.inl rfl)

/-- Embedding of `ni_reachability_check_t` (client/reachable.c); the resolved socket
address is abstracted as a `Nat`. -/
structure ni_reachability_check_t where
  hostname : String
  family : Int
  address_valid : Bool
  address : Nat
deriving Repr, DecidableEq

/-- The requirement fields read and written by the check
(`ni_fsm_require_t`): the stored event sequence and the
reachability-check user data. -/
structure ni_fsm_require_t where
  event_seq : Nat
  check : ni_reachability_check_t
deriving Repr, DecidableEq

/-- The fsm fields read by the check (`ni_objectmodel_fsm_t`): the
global event sequence and the per-kind last-event sequences for
`NI_EVENT_ADDRESS_ACQUIRED` and `NI_EVENT_RESOLVER_UPDATED`. -/
structure ni_objectmodel_fsm_t where
  event_seq : Nat
  last_event_seq_address_acquired : Nat
  last_event_seq_resolver_updated : Nat
deriving Repr, DecidableEq

/-- Observable outcome of one evaluation: the boolean verdict, the
updated requirement, and whether the resolver
(`ni_resolve_hostname_timed`) and the prober (`ni_host_is_reachable`)
were invoked. -/
structure CheckOutcome where
  result : Bool
  req : ni_fsm_require_t
  resolverCalled : Bool
  proberCalled : Bool
deriving Repr, DecidableEq

/-- Embedding of `ni_fsm_require_check_reachable` (client/reachable.c).  `resolve`
returns the count of the C function together with the address it would store
(the address is only stored on a positive count, matching that on
failure the cache flag stays false and the stale field is never read);
`reachable` returns the count of the prober. -/
def ni_fsm_require_check_reachable (resolve : String → Int → Int × Nat)
    (reachable : String → Nat → Int)
    (fsm : ni_objectmodel_fsm_t) (req : ni_fsm_require_t) : CheckOutcome :=
  if req.event_seq = fsm.last_event_seq_address_acquired then
    ⟨false, req, false, false⟩
  else
    let check1 :=
      if req.event_seq < fsm.last_event_seq_resolver_updated then
        { req.check with address_valid := false }
      else
        req.check
    if check1.address_valid = true then
      let req' : ni_fsm_require_t :=
        ⟨fsm.event_seq, { check1 with address_valid := true }⟩
      if reachable check1.hostname check1.address ≤ 0 then
        ⟨false, req', false, true⟩
      else
        ⟨true, req', false, true⟩
    else
      let r := resolve check1.hostname check1.family
      if r.1 ≤ 0 then
        ⟨false, ⟨fsm.event_seq, check1⟩, true, false⟩
      else
        let check2 := { check1 with address_valid := true, address := r.2 }
        if reachable check2.hostname check2.address ≤ 0 then
          ⟨false, ⟨fsm.event_seq, check2⟩, true, true⟩
        else
          ⟨true, ⟨fsm.event_seq, check2⟩, true, true⟩

/-- C5 (amended): if the stored event sequence of the requirement equals the
last address-acquired event sequence, the evaluation skips: it reports
false without invoking the resolver or the prober and leaves the
requirement unchanged; hence an immediately repeated evaluation with
unchanged fsm state also skips, reporting the same false without
invoking the predicate. -/
theorem check_reachable_skip_rule (resolve : String → Int → Int × Nat)
    (reachable : String → Nat → Int) (fsm : ni_objectmodel_fsm_t)
    (req : ni_fsm_require_t)
    (h : req.event_seq = fsm.last_event_seq_address_acquired) :
    ni_fsm_require_check_reachable resolve reachable fsm req =
      ⟨false, req, false, false⟩ ∧
    ni_fsm_require_check_reachable resolve reachable fsm
      (ni_fsm_require_check_reachable resolve reachable fsm req).req =
      ⟨false, req, false, false⟩ := by
  have h1 : ni_fsm_require_check_reachable resolve reachable fsm req =
      ⟨false, req, false, false⟩ := by
    simp [ni_fsm_require_check_reachable, h]
  exact ⟨h1, by rw [h1]; exact h1⟩

/-- C5 witness: a requirement whose stored sequence equals the last
address-acquired sequence is skipped twice in a row, reporting false
both times with no resolver or prober invocation. -/
theorem check_reachable_skip_rule_witness :
    ni_fsm_require_check_reachable (fun _ _ => (1, 42)) (fun _ _ => 1)
      ⟨7, 7, 0⟩ ⟨7, ⟨"host", 0, false, 0⟩⟩ =
      ⟨false, ⟨7, ⟨"host", 0, false, 0⟩⟩, false, false⟩ ∧
    ni_fsm_require_check_reachable (fun _ _ => (1, 42)) (fun _ _ => 1)
      ⟨7, 7, 0⟩ (ni_fsm_require_check_reachable (fun _ _ => (1, 42))
        (fun _ _ => 1) ⟨7, 7, 0⟩ ⟨7, ⟨"host", 0, false, 0⟩⟩).req =
      ⟨false, ⟨7, ⟨"host", 0, false, 0⟩⟩, false, false⟩ :=
  check_reachable_skip_rule (fun _ _ => (1, 42)) (fun _ _ => 1)
    ⟨7, 7, 0⟩ ⟨7, ⟨"host", 0, false, 0⟩⟩ rfl

/-- C5 counterexample: with no intervening event between two consecutive
evaluations (identical fsm state), the first evaluation runs the
predicate and returns true, while the second skips and returns false:
consecutive evaluations do not reproduce the same boolean outcome, and
the first one does re-invoke the predicate. -/
theorem check_reachable_consecutive_cex :
    (ni_fsm_require_check_reachable (fun _ _ => (1, 42)) (fun _ _ => 1)
        ⟨10, 10, 0⟩ ⟨5, ⟨"host", 0, false, 0⟩⟩).result = true ∧
    (ni_fsm_require_check_reachable (fun _ _ => (1, 42)) (fun _ _ => 1)
        ⟨10, 10, 0⟩ ⟨5, ⟨"host", 0, false, 0⟩⟩).proberCalled = true ∧
    (ni_fsm_require_check_reachable (fun _ _ => (1, 42)) (fun _ _ => 1)
        ⟨10, 10, 0⟩
        (ni_fsm_require_check_reachable (fun _ _ => (1, 42))
          (fun _ _ => 1) ⟨10, 10, 0⟩
          ⟨5, ⟨"host", 0, false, 0⟩⟩).req).result = false := by
  refine ⟨rfl, rfl, rfl⟩

/-- C2 (amended): if a resolver-update event occurred after the
last evaluation of the requirement and the skip rule does not apply, the
evaluation discards the cached resolved address and attempts fresh
resolution (the resolver is invoked even when the cache was valid), and
a failed fresh resolution leaves the cache invalid. -/
theorem check_reachable_invalidation (resolve : String → Int → Int × Nat)
    (reachable : String → Nat → Int) (fsm : ni_objectmodel_fsm_t)
    (req : ni_fsm_require_t)
    (hskip : req.event_seq ≠ fsm.last_event_seq_address_acquired)
    (hres : req.event_seq < fsm.last_event_seq_resolver_updated) :
    (ni_fsm_require_check_reachable resolve reachable fsm
        req).resolverCalled = true ∧
    ((resolve req.check.hostname req.check.family).1 ≤ 0 →
      (ni_fsm_require_check_reachable resolve reachable fsm
          req).req.check.address_valid = false) := by
  by_cases hr : (resolve req.check.hostname req.check.family).1 ≤ 0
  · simp [ni_fsm_require_check_reachable, if_neg hskip, if_pos hres, hr]
  · simp only [ni_fsm_require_check_reachable, if_neg hskip, if_pos hres]
    constructor
    · simp [hr]
      split <;> rfl
    · intro habs
      exact absurd habs hr

/-- C2 witness: a requirement with a valid cached address, evaluated
after a resolver update with the skip rule not applying, invokes the
resolver afresh; with an always-failing resolver the cache ends up
invalid. -/
theorem check_reachable_invalidation_witness :
    (ni_fsm_require_check_reachable (fun _ _ => (0, 0)) (fun _ _ => 1)
        ⟨8, 3, 8⟩ ⟨5, ⟨"host", 0, true, 42⟩⟩).resolverCalled = true ∧
    (ni_fsm_require_check_reachable (fun _ _ => (0, 0)) (fun _ _ => 1)
        ⟨8, 3, 8⟩ ⟨5, ⟨"host", 0, true, 42⟩⟩).req.check.address_valid
      = false :=
  ⟨(check_reachable_invalidation (fun _ _ => (0, 0)) (fun _ _ => 1)
      ⟨8, 3, 8⟩ ⟨5, ⟨"host", 0, true, 42⟩⟩ (by decide) (by decide)).1,
   (check_reachable_invalidation (fun _ _ => (0, 0)) (fun _ _ => 1)
      ⟨8, 3, 8⟩ ⟨5, ⟨"host", 0, true, 42⟩⟩ (by decide) (by decide)).2
      (by decide)⟩

/-- C2 counterexample: a requirement whose cached address is valid and
for which a resolver update occurred after its last evaluation, but
whose stored sequence equals the last address-acquired sequence: the
evaluation skips, the resolver is not invoked and the cached address is
retained, contradicting the claim that the cache is discarded and fresh
resolution attempted even when the skip rule applies. -/
theorem check_reachable_skip_keeps_cache_cex :
    (⟨5, ⟨"host", 0, true, 42⟩⟩ : ni_fsm_require_t).check.address_valid
        = true ∧
    (⟨5, ⟨"host", 0, true, 42⟩⟩ : ni_fsm_require_t).event_seq <
      (⟨8, 5, 8⟩ : ni_objectmodel_fsm_t).last_event_seq_resolver_updated ∧
    (ni_fsm_require_check_reachable (fun _ _ => (1, 99)) (fun _ _ => 1)
        ⟨8, 5, 8⟩ ⟨5, ⟨"host", 0, true, 42⟩⟩).resolverCalled = false ∧
    (ni_fsm_require_check_reachable (fun _ _ => (1, 99)) (fun _ _ => 1)
        ⟨8, 5, 8⟩ ⟨5, ⟨"host", 0, true, 42⟩⟩).req.check.address_valid
      = true := by
  refine ⟨rfl, by decide, rfl, rfl⟩

/-- C8: the check fails closed: (i) when resolution always fails (count
at most 0) and no resolved address is cached, every call — whatever the
event sequences — reports false, and it also leaves the cache invalid,
so the same holds for every later call; (ii) when the reachability probe
always fails (count at most 0), every call reports false.  The embedding
is a total function, so no evaluation aborts the caller. -/
theorem check_reachable_fail_closed (resolve : String → Int → Int × Nat)
    (reachable : String → Nat → Int) (fsm : ni_objectmodel_fsm_t)
    (req : ni_fsm_require_t) :
    ((∀ s f, (resolve s f).1 ≤ 0) → req.check.address_valid = false →
      (ni_fsm_require_check_reachable resolve reachable fsm req).result
        = false ∧
      (ni_fsm_require_check_reachable resolve reachable fsm
          req).req.check.address_valid = false) ∧
    ((∀ s a, reachable s a ≤ 0) →
      (ni_fsm_require_check_reachable resolve reachable fsm req).result
        = false) := by
  constructor
  · intro hall hvalid
    by_cases hskip : req.event_seq = fsm.last_event_seq_address_acquired
    · simp [ni_fsm_require_check_reachable, hskip, hvalid]
    · by_cases hres : req.event_seq < fsm.last_event_seq_resolver_updated
      · simp [ni_fsm_require_check_reachable, if_neg hskip, if_pos hres,
          hall]
      · simp [ni_fsm_require_check_reachable, if_neg hskip, if_neg hres,
          hall, hvalid]
  · intro hall
    by_cases hskip : req.event_seq = fsm.last_event_seq_address_acquired
    · simp [ni_fsm_require_check_reachable, hskip]
    · simp [ni_fsm_require_check_reachable, if_neg hskip, hall]
      repeat' split
      all_goals rfl

/-- C8 witness: a requirement for a host whose resolution always fails
reports false with the cache left invalid; one whose probe always fails
also reports false. -/
theorem check_reachable_fail_closed_witness :
    ((ni_fsm_require_check_reachable (fun _ _ => (0, 0)) (fun _ _ => 1)
        ⟨9, 4, 2⟩ ⟨3, ⟨"example.invalid", 0, false, 0⟩⟩).result = false ∧
     (ni_fsm_require_check_reachable (fun _ _ => (0, 0)) (fun _ _ => 1)
        ⟨9, 4, 2⟩
        ⟨3, ⟨"example.invalid", 0, false, 0⟩⟩).req.check.address_valid
       = false) ∧
    (ni_fsm_require_check_reachable (fun _ _ => (1, 42)) (fun _ _ => 0)
        ⟨9, 4, 2⟩ ⟨3, ⟨"host", 0, false, 0⟩⟩).result = false :=
  ⟨(check_reachable_fail_closed (fun _ _ => (0, 0)) (fun _ _ => 1)
      ⟨9, 4, 2⟩ ⟨3, ⟨"example.invalid", 0, false, 0⟩⟩).1
      (fun _ _ => by decide) rfl,
   (check_reachable_fail_closed (fun _ _ => (1, 42)) (fun _ _ => 0)
      ⟨9, 4, 2⟩ ⟨3, ⟨"host", 0, false, 0⟩⟩).2 (fun _ _ => by decide)⟩
